import Mathlib

/-!
Shallow embedding of the pyscript configuration loader (`pyconfig.ts`) and
script executor (`pyexec.ts`).

JavaScript values occurring in parsed configs are modelled by `JSVal`;
JavaScript objects by insertion-ordered association lists (`Obj`); property
read/write by `getProp`/`setProp` (reading an absent key yields `undefined`,
exactly as in JavaScript); thrown JavaScript exceptions by `Except JSError`.
The external TOML/JSON parsers are oracles passed in as functions.
-/

/-- A JavaScript value as it can occur in a parsed TOML/JSON config:
`undefined`, strings, numbers, booleans, arrays and plain objects.
Objects are insertion-ordered association lists of properties. -/
inductive JSVal where
  | undef : JSVal
  | str : String → JSVal
  | num : Int → JSVal
  | bool : Bool → JSVal
  | arr : List JSVal → JSVal
  | obj : List (String × JSVal) → JSVal

/-- A JavaScript object: insertion-ordered list of named properties. -/
abbrev Obj := List (String × JSVal)

/-- `Object.keys`, in insertion order. -/
def objectKeys (o : Obj) : List String := o.map Prod.fst

/-- Property read `o[key]`: the first binding of `key`, or `undefined`
when the key is absent. -/
def getProp : Obj → String → JSVal
  | [], _ => JSVal.undef
  | (k, v) :: rest, key => if k = key then v else getProp rest key

/-- Property assignment `o[key] = v`: overwrite the binding in place when
present, append it otherwise (JavaScript keeps insertion order). -/
def setProp : Obj → String → JSVal → Obj
  | [], key, v => [(key, v)]
  | (k, w) :: rest, key, v =>
      if k = key then (k, v) :: rest else (k, w) :: setProp rest key v

/-- JavaScript `typeof`. Arrays and plain objects are both `"object"`. -/
def typeof : JSVal → String
  | JSVal.undef => "undefined"
  | JSVal.str _ => "string"
  | JSVal.num _ => "number"
  | JSVal.bool _ => "boolean"
  | JSVal.arr _ => "object"
  | JSVal.obj _ => "object"

/-- JavaScript truthiness: `undefined`, `""`, `0` and `false` are falsy;
every array and object is truthy. -/
def truthy : JSVal → Bool
  | JSVal.undef => false
  | JSVal.str s => decide (s ≠ "")
  | JSVal.num n => decide (n ≠ 0)
  | JSVal.bool b => b
  | JSVal.arr _ => true
  | JSVal.obj _ => true

/-- `Array.isArray`. -/
def isArr : JSVal → Bool
  | JSVal.arr _ => true
  | _ => false

/-- The cast `config[item] as object[]` used on a value already checked
to be an array. -/
def asArr : JSVal → List JSVal
  | JSVal.arr xs => xs
  | _ => []

/-- The keys enumerated by a JavaScript `for (const k in v)` loop:
an object's own keys, an array's or string's index strings, and nothing
for the remaining primitives (including `undefined`). -/
def forInKeys : JSVal → List String
  | JSVal.obj fields => fields.map Prod.fst
  | JSVal.arr xs => (List.range xs.length).map (fun i => toString i)
  | JSVal.str s => (List.range s.length).map (fun i => toString i)
  | _ => []

/-- Property read on an arbitrary value (`v[key]`), as used after an
`in`-test has succeeded: object lookup or array/string indexing. -/
def getPropV : JSVal → String → JSVal
  | JSVal.obj fields, key => getProp fields key
  | JSVal.arr xs, key =>
      match key.toNat? with
      | some i => xs.getD i JSVal.undef
      | none => JSVal.undef
  | JSVal.str s, key =>
      match key.toNat? with
      | some i =>
          match s.data.get? i with
          | some ch => JSVal.str (String.mk [ch])
          | none => JSVal.undef
      | none => JSVal.undef
  | _, _ => JSVal.undef

/-- The `allKeys` schema table of `pyconfig.ts`, with the object's
insertion (= iteration) order made explicit. -/
def allKeys : List (String × List String) :=
  [("string", ["name", "description", "version", "type", "author_name",
               "author_email", "license"]),
   ("number", ["schema_version"]),
   ("boolean", ["autoclose_loader"]),
   ("array", ["runtimes", "packages", "paths", "plugins"])]

/-- The module-level `defaultConfig` constant of `pyconfig.ts`. -/
def defaultConfig : Obj :=
  [("schema_version", JSVal.num 1),
   ("type", JSVal.str "app"),
   ("autoclose_loader", JSVal.bool true),
   ("runtimes", JSVal.arr
      [JSVal.obj
        [("src", JSVal.str "https://cdn.jsdelivr.net/pyodide/v0.21.3/full/pyodide.js"),
         ("name", JSVal.str "pyodide-0.21.3"),
         ("lang", JSVal.str "python")]]),
   ("packages", JSVal.arr []),
   ("paths", JSVal.arr []),
   ("plugins", JSVal.arr [])]

/-- Loop body of `fillUserData`: copy `key` through unless it is a key of
`defaultConfig` (note: the source checks `key in defaultConfig`, not
membership in the `allKeys` schema). -/
def fudStep (inputConfig : JSVal) (res : Obj) (key : String) : Obj :=
  if key ∈ objectKeys defaultConfig then res
  else setProp res key (getPropV inputConfig key)

/-- `fillUserData(inputConfig, resultConfig)` of `pyconfig.ts`:
`for (const key in inputConfig) if (!(key in defaultConfig))
resultConfig[key] = inputConfig[key]`. -/
def fillUserData (inputConfig : JSVal) (resultConfig : Obj) : Obj :=
  (forInKeys inputConfig).foldl (fudStep inputConfig) resultConfig

/-- Body of the schema-driven merge loop of `mergeConfig`: boolean keys
use an `is defined` test, every other key uses `||` (truthiness). -/
def mergeItem (inlineConfig externalConfig : Obj) (merged : Obj)
    (keyType item : String) : Obj :=
  if keyType = "boolean" then
    setProp merged item
      (if typeof (getProp inlineConfig item) ≠ "undefined" then
         getProp inlineConfig item
       else getProp externalConfig item)
  else
    setProp merged item
      (if truthy (getProp inlineConfig item) then getProp inlineConfig item
       else getProp externalConfig item)

/-- The schema-driven part of the full-merge branch of `mergeConfig`:
the nested loops over `allKeys` starting from the empty object. -/
def mergeSchema (inlineConfig externalConfig : Obj) : Obj :=
  allKeys.foldl
    (fun acc g =>
      g.2.foldl (fun a item => mergeItem inlineConfig externalConfig a g.1 item) acc)
    []

/-- The full-merge branch of `mergeConfig`: schema merge, then user data
from the external config, then user data from the inline config. -/
def mergeFull (inlineConfig externalConfig : Obj) : Obj :=
  fillUserData (JSVal.obj inlineConfig)
    (fillUserData (JSVal.obj externalConfig)
      (mergeSchema inlineConfig externalConfig))

/-- `mergeConfig(inlineConfig, externalConfig)` of `pyconfig.ts`. -/
def mergeConfig (inlineConfig externalConfig : Obj) : Obj :=
  if (objectKeys inlineConfig).length = 0 ∧ (objectKeys externalConfig).length = 0 then
    defaultConfig
  else if (objectKeys inlineConfig).length = 0 then externalConfig
  else if (objectKeys externalConfig).length = 0 then inlineConfig
  else mergeFull inlineConfig externalConfig

/-- A thrown JavaScript error, by kind: a plain `Error`, a `SyntaxError`,
a `TypeError`, or a parser-specific error object (constructor name and
message), as thrown by the external TOML parser. -/
inductive JSError where
  | jsErr : String → JSError
  | synErr : String → JSError
  | typeErr : String → JSError
  | custom : String → String → JSError
deriving DecidableEq, Repr

/-- JavaScript `err.toString()` for the errors modelled here. -/
def JSError.toStr : JSError → String
  | JSError.jsErr m => "Error: " ++ m
  | JSError.synErr m => "SyntaxError: " ++ m
  | JSError.typeErr m => "TypeError: " ++ m
  | JSError.custom n m => n ++ ": " ++ m

/-- What `parseConfig` does for its caller: return a parsed value, return
`undefined` (the unsupported-format path leaves `config` unassigned), or
throw. -/
inductive ParseOutcome where
  | parsed : JSVal → ParseOutcome
  | undef : ParseOutcome
  | thrown : JSError → ParseOutcome

/-- The character `\x7b`, the opening curly brace. -/
def leftBrace : Char := Char.ofNat 123

/-- JavaScript `String.prototype.trim`: drop whitespace from both ends. -/
def jsTrim (s : String) : String :=
  String.mk (((s.data.dropWhile Char.isWhitespace).reverse.dropWhile
    Char.isWhitespace).reverse)

/-- `parseConfig(configText, configType)` of `pyconfig.ts`. The external
`toml.parse` and `JSON.parse` are oracle parameters. The second component
collects the messages passed to `showError` (the user-visible errors).
For TOML input whose first non-whitespace character is a brace, the code
shows an error, throws `Error`, catches it in its own `catch`, shows a
second error and re-throws `SyntaxError(err.toString())`; a TOML parser
failure is likewise re-wrapped into `SyntaxError`; a JSON parser failure
is re-thrown as-is; any other declared format only shows a message and
returns the never-assigned `config`, i.e. `undefined`. -/
def parseConfig (tomlParseFn jsonParseFn : String → Except JSError JSVal)
    (configText configType : String) : ParseOutcome × List String :=
  if configType = "toml" then
    if (jsTrim configText).data.head? = some leftBrace then
      (ParseOutcome.thrown (JSError.synErr (JSError.toStr (JSError.jsErr
          ("config supplied: " ++ configText ++
           " is an invalid TOML and cannot be parsed")))),
       ["<p>config supplied: " ++ configText ++
          " is an invalid TOML and cannot be parsed</p>",
        "<p>config supplied: " ++ configText ++
          " is an invalid TOML and cannot be parsed: " ++
          JSError.toStr (JSError.jsErr
            ("config supplied: " ++ configText ++
             " is an invalid TOML and cannot be parsed")) ++ "</p>"])
    else
      match tomlParseFn configText with
      | Except.ok v => (ParseOutcome.parsed v, [])
      | Except.error e =>
          (ParseOutcome.thrown (JSError.synErr (JSError.toStr e)),
           ["<p>config supplied: " ++ configText ++
              " is an invalid TOML and cannot be parsed: " ++
              JSError.toStr e ++ "</p>"])
  else if configType = "json" then
    match jsonParseFn configText with
    | Except.ok v => (ParseOutcome.parsed v, [])
    | Except.error e =>
        (ParseOutcome.thrown e,
         ["<p>config supplied: " ++ configText ++
            " is an invalid JSON and cannot be parsed: " ++
            JSError.toStr e ++ "</p>"])
  else
    (ParseOutcome.undef,
     ["<p>type of config supplied is: " ++ configType ++
        ", supported values are [\"toml\", \"json\"].</p>"])

/-- The JavaScript `in` operator, `key in v`: own-key test on objects,
index test on arrays, and a thrown `TypeError` on `undefined` and the
other primitives. -/
def jsIn (key : String) (v : JSVal) : Except JSError Bool :=
  match v with
  | JSVal.obj fields => Except.ok (decide (key ∈ objectKeys fields))
  | JSVal.arr xs =>
      Except.ok (decide (key ∈ forInKeys (JSVal.arr xs)) || (key == "length"))
  | JSVal.undef =>
      Except.error (JSError.typeErr
        ("Cannot use 'in' operator to search for '" ++ key ++ "' in undefined"))
  | JSVal.str s =>
      Except.error (JSError.typeErr
        ("Cannot use 'in' operator to search for '" ++ key ++ "' in " ++ s))
  | JSVal.num _ =>
      Except.error (JSError.typeErr
        ("Cannot use 'in' operator to search for '" ++ key ++ "' in a number"))
  | JSVal.bool _ =>
      Except.error (JSError.typeErr
        ("Cannot use 'in' operator to search for '" ++ key ++ "' in a boolean"))

/-- `validateParamInConfig(paramName, paramType, config)` of `pyconfig.ts`:
`paramName in config` (which can throw on a non-object `config`), then
`Array.isArray` for the array type and a `typeof` match otherwise. -/
def validateParamInConfig (paramName paramType : String) (config : JSVal) :
    Except JSError Bool :=
  match jsIn paramName config with
  | Except.error e => Except.error e
  | Except.ok present =>
      if present then
        Except.ok (if paramType = "array" then isArr (getPropV config paramName)
                   else typeof (getPropV config paramName) == paramType)
      else Except.ok false

/-- Body of the per-field loop over one runtime entry in `validateConfig`:
keep the field only when it validates as a string. -/
def validateRuntimeStep (eachRuntime : JSVal) (runtimeConfig : Obj)
    (p : String) : Except JSError Obj :=
  match validateParamInConfig p "string" eachRuntime with
  | Except.error e => Except.error e
  | Except.ok ok =>
      Except.ok (if ok then setProp runtimeConfig p (getPropV eachRuntime p)
                 else runtimeConfig)

/-- Validation of one entry of the `runtimes` array: `for (const p in
eachRuntime)` copying each field that validates as a string into a fresh
object. -/
def validateRuntimeElem (eachRuntime : JSVal) : Except JSError Obj :=
  (forInKeys eachRuntime).foldlM (validateRuntimeStep eachRuntime) []

/-- Body of the schema loop of `validateConfig` for one `item` of declared
`keyType`: copy the key when it validates; for `runtimes`, rebuild the
array entry by entry via `validateRuntimeElem`. -/
def validateStep (config : JSVal) (keyType : String) (finalConfig : Obj)
    (item : String) : Except JSError Obj :=
  match validateParamInConfig item keyType config with
  | Except.error e => Except.error e
  | Except.ok ok =>
      if ok then
        if item = "runtimes" then
          match (asArr (getPropV config item)).mapM validateRuntimeElem with
          | Except.error e => Except.error e
          | Except.ok runtimeList =>
              Except.ok (setProp finalConfig item
                (JSVal.arr (runtimeList.map JSVal.obj)))
        else Except.ok (setProp finalConfig item (getPropV config item))
      else Except.ok finalConfig

/-- The body of `validateConfig` after parsing: the nested schema loops
over `allKeys`, then `fillUserData(config, finalConfig)`. -/
def validateConfigObj (config : JSVal) : Except JSError Obj :=
  match allKeys.foldlM (fun acc g => g.2.foldlM (validateStep config g.1) acc)
      ([] : Obj) with
  | Except.error e => Except.error e
  | Except.ok finalConfig => Except.ok (fillUserData config finalConfig)

/-- `validateConfig(configText, configType)` of `pyconfig.ts`:
`parseConfig` followed by the schema-driven copying. When `parseConfig`
returned `undefined` (unsupported format), the copying still runs — its
first `in` test then throws a `TypeError`. -/
def validateConfig (tomlParseFn jsonParseFn : String → Except JSError JSVal)
    (configText configType : String) : Except JSError Obj × List String :=
  match parseConfig tomlParseFn jsonParseFn configText configType with
  | (ParseOutcome.parsed v, msgs) => (validateConfigObj v, msgs)
  | (ParseOutcome.undef, msgs) => (validateConfigObj JSVal.undef, msgs)
  | (ParseOutcome.thrown e, msgs) => (Except.error e, msgs)

/-- The boolean that `validateParamInConfig` computes on an object config
(where the `in` test cannot throw). -/
def vpB (paramName paramType : String) (c : Obj) : Bool :=
  if paramName ∈ objectKeys c then
    (if paramType = "array" then isArr (getProp c paramName)
     else typeof (getProp c paramName) == paramType)
  else false

/-- Pure image of one schema-loop step of `validateConfig` on an object
config, with the rebuilt `runtimes` value passed in. -/
def vPureStep (c : Obj) (rv : JSVal) (keyType : String) (fc : Obj)
    (item : String) : Obj :=
  if vpB item keyType c then
    setProp fc item (if item = "runtimes" then rv else getProp c item)
  else fc

/-- Pure image of the whole schema loop of `validateConfig` on an object
config. -/
def vFoldPure (c : Obj) (rv : JSVal) : Obj :=
  allKeys.foldl (fun acc g => g.2.foldl (vPureStep c rv g.1) acc) []

/-- The string-typed fields an object runtime entry keeps after
validation. -/
def runtimeStringFields : JSVal → Obj
  | JSVal.obj fields => fields.filter (fun kv => typeof kv.2 == "string")
  | _ => []

/-- A parser oracle that always fails, for concrete instantiations. -/
def failParse : String → Except JSError JSVal :=
  fun _ => Except.error (JSError.jsErr "unused oracle")

/-- The error object reaching the `catch` of `pyExec`: its constructor
name (`'PythonError'` marks an interpreter-level exception), its
`message` (the Python traceback for a `PythonError`), and its string
coercion `String(err)`. -/
structure ErrObj where
  name : String
  message : String
  str : String

/-- A `<pre>` element as created by `displayPyException`. -/
structure PreElem where
  className : String
  innerText : String

/-- `displayPyException(err, errElem)` of `pyexec.ts`: append one `<pre
class="py-error">` to the element, holding the traceback message for a
`PythonError` and the string form of the error otherwise. -/
def displayPyException (err : ErrObj) (errElemChildren : List PreElem) :
    List PreElem :=
  errElemChildren ++
    [⟨"py-error", if err.name == "PythonError" then err.message else err.str⟩]

/-- The inner try/catch of `pyExec`: a normal run returns the value of
`runtime.run`; a failed run is caught and rendered by
`displayPyException`, and the function then returns `undefined`
(modelled as `none`). The result type still allows a thrown error, which
is how re-raising would show up. -/
def pyExecBody (runResult : Except ErrObj JSVal) (outChildren : List PreElem) :
    Except ErrObj (Option JSVal × List PreElem) :=
  match runResult with
  | Except.ok v => Except.ok (some v, outChildren)
  | Except.error e => Except.ok (none, displayPyException e outChildren)

/-- `pyExec(runtime, pysrc, outElem)` of `pyexec.ts`. `runResult` is the
oracle outcome of `await runtime.run(pysrc)`; `outElemId` the (ensured
unique) id of the output element; `outChildren` its children. The second
component is the trace of arguments passed to
`set_current_display_target`: first the element id, then — in the
`finally` block, on every path — `undefined` (`none`). -/
def pyExec (runResult : Except ErrObj JSVal) (outElemId : String)
    (outChildren : List PreElem) :
    Except ErrObj (Option JSVal × List PreElem) × List (Option String) :=
  (pyExecBody runResult outChildren, [some outElemId, none])

/-- A reference to a config object as handled inside
`loadConfigFromElement`: either the module-level `defaultConfig` object
itself, or a separate plain object. -/
inductive CfgRef where
  | dflt : CfgRef
  | plain : Obj → CfgRef

/-- Dereference: the contents of `defaultConfig` are the mutable module
state `st`. -/
def readRef (st : Obj) : CfgRef → Obj
  | CfgRef.dflt => st
  | CfgRef.plain o => o

/-- `mergeConfig` at the reference level: the first three branches return
one of the incoming references (`return defaultConfig` returns the
module-level object itself, not a copy); only the full-merge branch
builds a fresh object. -/
def mergeConfigRef (st : Obj) (inlineRef externalRef : CfgRef) : CfgRef :=
  if (objectKeys (readRef st inlineRef)).length = 0 ∧
     (objectKeys (readRef st externalRef)).length = 0 then CfgRef.dflt
  else if (objectKeys (readRef st inlineRef)).length = 0 then externalRef
  else if (objectKeys (readRef st externalRef)).length = 0 then inlineRef
  else CfgRef.plain (mergeFull (readRef st inlineRef) (readRef st externalRef))

/-- `loadConfigFromElement(null)` of `pyconfig.ts`, with the mutable
contents of the module-level `defaultConfig` object threaded as `st`:
both extracted configs are empty, `srcConfig = mergeConfig({},
defaultConfig)`, `result = mergeConfig({}, srcConfig)`, then
`result.pyscript = meta` writes through the returned reference — into
the `defaultConfig` object itself when the reference aliases it. Returns
the result reference and the new contents of `defaultConfig`. -/
def loadConfigFromElementNull (st : Obj) (meta : JSVal) : CfgRef × Obj :=
  match mergeConfigRef st (CfgRef.plain [])
      (mergeConfigRef st (CfgRef.plain []) CfgRef.dflt) with
  | CfgRef.dflt => (CfgRef.dflt, setProp st "pyscript" meta)
  | CfgRef.plain o => (CfgRef.plain (setProp o "pyscript" meta), st)

theorem getProp_setProp_self (o : Obj) (k : String) (v : JSVal) :
    getProp (setProp o k v) k = v := by
  induction o with
  | nil => simp [setProp, getProp]
  | cons hd tl ih =>
      obtain ⟨k0, v0⟩ := hd
      by_cases hk : k0 = k
      · simp [setProp, hk, getProp]
      · simp [setProp, hk, getProp, ih]

theorem getProp_setProp_ne (o : Obj) (k : String) (v : JSVal) (key : String)
    (h : ¬k = key) : getProp (setProp o k v) key = getProp o key := by
  induction o with
  | nil => simp [setProp, getProp, h]
  | cons hd tl ih =>
      obtain ⟨k0, v0⟩ := hd
      by_cases hk : k0 = k
      · subst hk
        simp [setProp, getProp, h]
      · have hset : setProp ((k0, v0) :: tl) k v = (k0, v0) :: setProp tl k v := by
          simp [setProp, hk]
        rw [hset]
        by_cases hk0 : k0 = key
        · simp [getProp, hk0]
        · simp [getProp, hk0, ih]

theorem mem_objectKeys_setProp (o : Obj) (k : String) (v : JSVal) (key : String) :
    key ∈ objectKeys (setProp o k v) ↔ key ∈ objectKeys o ∨ key = k := by
  induction o with
  | nil => simp [setProp, objectKeys, eq_comm]
  | cons hd tl ih =>
      obtain ⟨k0, v0⟩ := hd
      by_cases hk : k0 = k
      · subst hk
        have hset : setProp ((k0, v0) :: tl) k0 v = (k0, v) :: tl := by
          simp [setProp]
        rw [hset]
        simp only [objectKeys, List.map_cons, List.mem_cons]
        tauto
      · have hset : setProp ((k0, v0) :: tl) k v = (k0, v0) :: setProp tl k v := by
          simp [setProp, hk]
        rw [hset]
        simp only [objectKeys, List.map_cons, List.mem_cons]
        have ih' : key ∈ List.map Prod.fst (setProp tl k v) ↔
            key ∈ List.map Prod.fst tl ∨ key = k := ih
        rw [ih']
        tauto

theorem setProp_eq_append (o : Obj) (k : String) (v : JSVal)
    (h : ¬k ∈ objectKeys o) : setProp o k v = o ++ [(k, v)] := by
  induction o with
  | nil => simp [setProp]
  | cons hd tl ih =>
      obtain ⟨k0, v0⟩ := hd
      simp only [objectKeys, List.map_cons, List.mem_cons] at h
      push_neg at h
      simp only [setProp, if_neg (Ne.symm h.1), List.cons_append, List.cons.injEq, true_and]
      exact ih h.2

/-- The claims C2/C4/C8 quantify over non-empty configs; this rewrites the
branch selection of `mergeConfig` under that hypothesis. -/
theorem mergeConfig_of_ne (p s : Obj) (hp : p ≠ []) (hs : s ≠ []) :
    mergeConfig p s = mergeFull p s := by
  have hp0 : ¬(objectKeys p).length = 0 := by
    cases p with
    | nil => exact absurd rfl hp
    | cons a t => simp [objectKeys]
  have hs0 : ¬(objectKeys s).length = 0 := by
    cases s with
    | nil => exact absurd rfl hs
    | cons a t => simp [objectKeys]
  simp [mergeConfig, hp0, hs0]

/-- C8: merging two empty configs yields the default config; merging an
empty config with a non-empty one (in either order) returns the non-empty
input unchanged, with no field-by-field merge and no defaulting. -/
theorem mergeConfig_empty_shortcircuit :
    mergeConfig [] [] = defaultConfig ∧
    ∀ o : Obj, o ≠ [] →
      mergeConfig [] o = o ∧ mergeConfig o [] = o := by
  constructor
  · rfl
  · intro o ho
    have h0 : ¬(objectKeys o).length = 0 := by
      cases o with
      | nil => exact absurd rfl ho
      | cons a t => simp [objectKeys]
    constructor
    · simp [mergeConfig, h0, objectKeys, ho]
    · simp [mergeConfig, h0, objectKeys, ho]

theorem mergeConfig_empty_shortcircuit_witness :
    mergeConfig [] [("name", JSVal.str "demo")] = [("name", JSVal.str "demo")] ∧
    mergeConfig [("name", JSVal.str "demo")] [] = [("name", JSVal.str "demo")] :=
  mergeConfig_empty_shortcircuit.2 [("name", JSVal.str "demo")] (List.cons_ne_nil _ _)

theorem foldl_fudStep_default (input : JSVal) (l : List String) (res : Obj)
    (key : String) (h : key ∈ objectKeys defaultConfig) :
    getProp (l.foldl (fudStep input) res) key = getProp res key := by
  induction l generalizing res with
  | nil => rfl
  | cons a t ih =>
      rw [List.foldl_cons, ih]
      unfold fudStep
      by_cases ha : a ∈ objectKeys defaultConfig
      · rw [if_pos ha]
      · rw [if_neg ha]
        exact getProp_setProp_ne _ _ _ _ (fun e => ha (by rw [e]; exact h))

/-- `fillUserData` never touches a key of `defaultConfig`. -/
theorem fillUserData_default_key (input : JSVal) (res : Obj) (key : String)
    (h : key ∈ objectKeys defaultConfig) :
    getProp (fillUserData input res) key = getProp res key :=
  foldl_fudStep_default input (forInKeys input) res key h

theorem foldl_fudStep_user (input : JSVal) (l : List String) (res : Obj)
    (key : String) (h : ¬key ∈ objectKeys defaultConfig) :
    getProp (l.foldl (fudStep input) res) key =
      if key ∈ l then getPropV input key else getProp res key := by
  induction l generalizing res with
  | nil => simp
  | cons a t ih =>
      rw [List.foldl_cons, ih]
      by_cases hat : key ∈ t
      · simp [hat]
      · rw [if_neg hat]
        by_cases hak : a = key
        · subst hak
          unfold fudStep
          rw [if_neg h, getProp_setProp_self]
          simp
        · have hstep : getProp (fudStep input res a) key = getProp res key := by
            unfold fudStep
            by_cases hd : a ∈ objectKeys defaultConfig
            · rw [if_pos hd]
            · rw [if_neg hd, getProp_setProp_ne _ _ _ _ hak]
          rw [hstep]
          have hka : ¬key = a := fun e => hak e.symm
          simp [List.mem_cons, hat, hka]

/-- On a key outside `defaultConfig`, `fillUserData` copies the input's
value whenever the input has the key. -/
theorem fillUserData_user_key (input : JSVal) (res : Obj) (key : String)
    (h : ¬key ∈ objectKeys defaultConfig) :
    getProp (fillUserData input res) key =
      if key ∈ forInKeys input then getPropV input key else getProp res key :=
  foldl_fudStep_user input (forInKeys input) res key h

theorem getProp_mergeSchema_type (p s : Obj) :
    getProp (mergeSchema p s) "type" =
      (if truthy (getProp p "type") then getProp p "type" else getProp s "type") := by
  rfl

theorem getProp_mergeSchema_autoclose (p s : Obj) :
    getProp (mergeSchema p s) "autoclose_loader" =
      (if typeof (getProp p "autoclose_loader") ≠ "undefined" then
         getProp p "autoclose_loader"
       else getProp s "autoclose_loader") := by
  rfl

theorem getProp_mergeSchema_name (p s : Obj) :
    getProp (mergeSchema p s) "name" =
      (if truthy (getProp p "name") then getProp p "name" else getProp s "name") := by
  rfl

theorem getProp_mergeFull_type (p s : Obj) :
    getProp (mergeFull p s) "type" =
      (if truthy (getProp p "type") then getProp p "type" else getProp s "type") := by
  unfold mergeFull
  rw [fillUserData_default_key _ _ _ (by decide),
      fillUserData_default_key _ _ _ (by decide),
      getProp_mergeSchema_type]

theorem getProp_mergeFull_autoclose (p s : Obj) :
    getProp (mergeFull p s) "autoclose_loader" =
      (if typeof (getProp p "autoclose_loader") ≠ "undefined" then
         getProp p "autoclose_loader"
       else getProp s "autoclose_loader") := by
  unfold mergeFull
  rw [fillUserData_default_key _ _ _ (by decide),
      fillUserData_default_key _ _ _ (by decide),
      getProp_mergeSchema_autoclose]

theorem getProp_mergeFull_name (p s : Obj) :
    getProp (mergeFull p s) "name" =
      (if "name" ∈ objectKeys p then getProp p "name"
       else if "name" ∈ objectKeys s then getProp s "name"
       else if truthy (getProp p "name") then getProp p "name"
       else getProp s "name") := by
  unfold mergeFull
  rw [fillUserData_user_key _ _ _ (by decide),
      fillUserData_user_key _ _ _ (by decide),
      getProp_mergeSchema_name]
  rfl

/-- C4: for the recognized boolean key `autoclose_loader`, merging a
non-empty primary config that sets it explicitly to `false` over any
non-empty secondary config in which it is `true` yields `false`: the
boolean branch of `mergeConfig` tests `typeof !== 'undefined'` (is the
key defined), never truthiness, and `fillUserData` cannot override a key
of `defaultConfig`. -/
theorem merge_bool_false_survives (p s : Obj) (hp : p ≠ []) (hs : s ≠ [])
    (hpa : getProp p "autoclose_loader" = JSVal.bool false)
    (hsa : getProp s "autoclose_loader" = JSVal.bool true) :
    getProp (mergeConfig p s) "autoclose_loader" = JSVal.bool false := by
  rw [mergeConfig_of_ne p s hp hs, getProp_mergeFull_autoclose, hpa]
  simp [typeof]

theorem merge_bool_false_survives_witness :
    getProp (mergeConfig [("autoclose_loader", JSVal.bool false)] defaultConfig)
      "autoclose_loader" = JSVal.bool false :=
  merge_bool_false_survives [("autoclose_loader", JSVal.bool false)] defaultConfig
    (List.cons_ne_nil _ _) (by simp [defaultConfig]) rfl rfl

/-- C2 counterexample: `type` is a non-boolean recognized key that is also
a key of `defaultConfig`. With primary `{type: ""}` (defined but falsy)
and secondary `{type: "module"}`, the merge takes the secondary value:
the non-boolean branch of `mergeConfig` uses `||`, i.e. truthiness, not
"is this key defined", so the claim fails as stated. -/
theorem merge_falsy_replaced_counterexample :
    getProp (mergeConfig [("type", JSVal.str "")] [("type", JSVal.str "module")])
        "type" = JSVal.str "module" ∧
    getProp (mergeConfig [("type", JSVal.str "")] [("type", JSVal.str "module")])
        "type" ≠ JSVal.str "" := by
  constructor
  · rfl
  · intro h
    rw [show getProp (mergeConfig [("type", JSVal.str "")]
          [("type", JSVal.str "module")]) "type" = JSVal.str "module" from rfl] at h
    injection h with h2
    exact absurd h2 (by decide)

/-- C2 amended: for two non-empty configs the schema merge takes
`primary[key]` when *truthy*, else `secondary[key]`, for every non-boolean
key; only the boolean key uses "is this key defined". A defined-but-falsy
non-boolean value in primary is therefore replaced by secondary's value
for schema keys that are keys of `defaultConfig` (e.g. `type`). For the
schema keys absent from `defaultConfig` (e.g. `name`) the subsequent
`fillUserData` passes overwrite the schema merge with secondary's then
primary's stored value, so there a defined value in primary wins again. -/
theorem merge_semantics_amended (p s : Obj) (hp : p ≠ []) (hs : s ≠ []) :
    getProp (mergeConfig p s) "autoclose_loader" =
      (if typeof (getProp p "autoclose_loader") ≠ "undefined" then
         getProp p "autoclose_loader"
       else getProp s "autoclose_loader") ∧
    getProp (mergeConfig p s) "type" =
      (if truthy (getProp p "type") then getProp p "type" else getProp s "type") ∧
    getProp (mergeConfig p s) "name" =
      (if "name" ∈ objectKeys p then getProp p "name"
       else if "name" ∈ objectKeys s then getProp s "name"
       else if truthy (getProp p "name") then getProp p "name"
       else getProp s "name") := by
  rw [mergeConfig_of_ne p s hp hs]
  exact ⟨getProp_mergeFull_autoclose p s, getProp_mergeFull_type p s,
         getProp_mergeFull_name p s⟩

theorem merge_semantics_witness :
    getProp (mergeConfig [("type", JSVal.str ""), ("name", JSVal.str "")]
      [("type", JSVal.str "module"), ("name", JSVal.str "demo")]) "type" =
        JSVal.str "module" ∧
    getProp (mergeConfig [("type", JSVal.str ""), ("name", JSVal.str "")]
      [("type", JSVal.str "module"), ("name", JSVal.str "demo")]) "name" =
        JSVal.str "" := by
  have h := merge_semantics_amended
    [("type", JSVal.str ""), ("name", JSVal.str "")]
    [("type", JSVal.str "module"), ("name", JSVal.str "demo")]
    (List.cons_ne_nil _ _) (List.cons_ne_nil _ _)
  refine ⟨?_, ?_⟩
  · rw [h.2.1]
    rfl
  · rw [h.2.2]
    rfl

/-- C5: whatever `runtime.run` does — return a value or fail with any
error — the trace of calls to `set_current_display_target` made by
`pyExec` is the element id followed by `undefined`: the display-routing
target is cleared in the `finally` block before `pyExec` returns, on the
success and on the error path alike. -/
theorem pyExec_always_clears_display_target (runResult : Except ErrObj JSVal)
    (outElemId : String) (outChildren : List PreElem) :
    (pyExec runResult outElemId outChildren).2 = [some outElemId, none] := rfl

/-- C6: when `runtime.run` fails with any error, `pyExec` catches it and
returns normally (`Except.ok`, never a re-raise), appending exactly one
`<pre>` with class `py-error` to the target element, whose text is the
traceback `err.message` when `err.name` is `'PythonError'` and the
string form of the error otherwise; the display target is still cleared
afterwards. -/
theorem pyExec_error_renders_pre_and_returns (err : ErrObj) (outElemId : String)
    (outChildren : List PreElem) :
    pyExec (Except.error err) outElemId outChildren =
      (Except.ok (none, outChildren ++
         [⟨"py-error", if err.name == "PythonError" then err.message else err.str⟩]),
       [some outElemId, none]) := rfl

/-- C10: with a null element both configs are empty, `mergeConfig`
returns the module-level `defaultConfig` object itself (the reference,
not a copy), and `loadConfigFromElement` then writes the `pyscript`
metadata into that shared object: the contents of `defaultConfig` after
the call carry a `pyscript` key that was not there before. -/
theorem loadConfigNull_mutates_defaultConfig (meta : JSVal) :
    mergeConfigRef defaultConfig (CfgRef.plain [])
        (mergeConfigRef defaultConfig (CfgRef.plain []) CfgRef.dflt) =
      CfgRef.dflt ∧
    loadConfigFromElementNull defaultConfig meta =
      (CfgRef.dflt, setProp defaultConfig "pyscript" meta) ∧
    getProp (loadConfigFromElementNull defaultConfig meta).2 "pyscript" = meta ∧
    getProp defaultConfig "pyscript" = JSVal.undef :=
  ⟨rfl, rfl, rfl, rfl⟩

/-- C3: evaluation of the code at the failing input `{name: 42}`. The
schema loop rejects `name` (a number where a string is declared), but
`fillUserData` then copies every key that is not a key of
`defaultConfig` — and `name` is not one — so the wrongly-typed
recognized key appears verbatim in the validated result, contradicting
the claim (and the loop comment "fill in all extra keys ignored by the
validator"). -/
theorem validate_passes_wrongly_typed_name :
    validateConfigObj (JSVal.obj [("name", JSVal.num 42)]) =
      Except.ok [("name", JSVal.num 42)] := rfl

/-- C1 counterexample: with declared format `yaml` (neither `toml` nor
`json`) the config-loading path does raise an error to the caller:
`parseConfig` returns `undefined`, and `validateConfig` then throws a
`TypeError` from the first `paramName in config` probe — so it is not
true that only a user-visible message is produced. -/
theorem unsupportedType_raises_counterexample :
    (validateConfig failParse failParse "name = 1" "yaml").1 =
      Except.error (JSError.typeErr
        "Cannot use 'in' operator to search for 'name' in undefined") := rfl

/-- C1 amended: for every declared format other than `toml` and `json`,
`parseConfig` itself surfaces exactly one user-visible message (listing
the two supported formats) and raises nothing, producing `undefined`
instead of a config; but `validateConfig` then probes that `undefined`
with the `in` operator and raises a `TypeError` to the caller — the
caller sees a raised (non-syntax) error, and no usable config object. -/
theorem unsupportedType_parse_undef_validate_typeError
    (tomlParseFn jsonParseFn : String → Except JSError JSVal)
    (configText configType : String)
    (h1 : configType ≠ "toml") (h2 : configType ≠ "json") :
    parseConfig tomlParseFn jsonParseFn configText configType =
      (ParseOutcome.undef,
       ["<p>type of config supplied is: " ++ configType ++
          ", supported values are [\"toml\", \"json\"].</p>"]) ∧
    (validateConfig tomlParseFn jsonParseFn configText configType).1 =
      Except.error (JSError.typeErr
        "Cannot use 'in' operator to search for 'name' in undefined") := by
  have hp : parseConfig tomlParseFn jsonParseFn configText configType =
      (ParseOutcome.undef,
       ["<p>type of config supplied is: " ++ configType ++
          ", supported values are [\"toml\", \"json\"].</p>"]) := by
    simp [parseConfig, h1, h2]
  refine ⟨hp, ?_⟩
  unfold validateConfig
  rw [hp]
  rfl

theorem unsupportedType_witness :
    parseConfig failParse failParse "name = 1" "yaml" =
      (ParseOutcome.undef,
       ["<p>type of config supplied is: yaml" ++
          ", supported values are [\"toml\", \"json\"].</p>"]) ∧
    (validateConfig failParse failParse "name = 1" "yaml").1 =
      Except.error (JSError.typeErr
        "Cannot use 'in' operator to search for 'name' in undefined") :=
  unsupportedType_parse_undef_validate_typeError failParse failParse
    "name = 1" "yaml" (by decide) (by decide)

/-- C7: parsing with declared format `toml` fails with a `SyntaxError`
whenever the first non-whitespace character of the text is a brace,
whatever the TOML parser oracle would have said; and on every other text
on which the TOML parser fails, the thrown error is re-wrapped as a
`SyntaxError` carrying the string form of the parser error, rather than
propagated as-is. -/
theorem parseConfig_toml_wraps_syntaxError
    (tomlParseFn jsonParseFn : String → Except JSError JSVal)
    (configText : String) :
    ((jsTrim configText).data.head? = some leftBrace →
      ∃ m, (parseConfig tomlParseFn jsonParseFn configText "toml").1 =
        ParseOutcome.thrown (JSError.synErr m)) ∧
    (∀ e : JSError, (jsTrim configText).data.head? ≠ some leftBrace →
      tomlParseFn configText = Except.error e →
      (parseConfig tomlParseFn jsonParseFn configText "toml").1 =
        ParseOutcome.thrown (JSError.synErr (JSError.toStr e))) := by
  constructor
  · intro hb
    refine ⟨JSError.toStr (JSError.jsErr ("config supplied: " ++ configText ++
      " is an invalid TOML and cannot be parsed")), ?_⟩
    simp [parseConfig, hb]
  · intro e hb he
    simp [parseConfig, hb, he]

theorem parseConfig_toml_wraps_syntaxError_witness :
    (∃ m, (parseConfig failParse failParse "\x7ba = 1" "toml").1 =
       ParseOutcome.thrown (JSError.synErr m)) ∧
    (parseConfig failParse failParse "x = 1" "toml").1 =
      ParseOutcome.thrown (JSError.synErr
        (JSError.toStr (JSError.jsErr "unused oracle"))) := by
  constructor
  · exact (parseConfig_toml_wraps_syntaxError failParse failParse
      "\x7ba = 1").1 (by rfl)
  · exact (parseConfig_toml_wraps_syntaxError failParse failParse "x = 1").2
      (JSError.jsErr "unused oracle") (by decide) rfl

theorem exceptOk_bind {α β : Type} (a : α) (f : α → Except JSError β) :
    (Except.ok a >>= f) = f a := rfl

theorem getProp_ne_undef_mem (c : Obj) (key : String)
    (h : getProp c key ≠ JSVal.undef) : key ∈ objectKeys c := by
  induction c with
  | nil => exact absurd rfl h
  | cons hd tl ih =>
      obtain ⟨k, v⟩ := hd
      by_cases hk : k = key
      · simp [objectKeys, hk]
      · simp only [getProp, if_neg hk] at h
        simp only [objectKeys, List.map_cons, List.mem_cons]
        exact Or.inr (ih h)

/-- On an object config the `in` test of `validateParamInConfig` cannot
throw, and the whole check computes the boolean `vpB`. -/
theorem validateParam_obj (paramName paramType : String) (c : Obj) :
    validateParamInConfig paramName paramType (JSVal.obj c) =
      Except.ok (vpB paramName paramType c) := by
  unfold validateParamInConfig jsIn vpB
  by_cases h : paramName ∈ objectKeys c
  · simp [h, getPropV]
  · simp [h]

theorem validateStep_not_runtimes (c : Obj) (keyType item : String) (fc : Obj)
    (h : ¬item = "runtimes") :
    validateStep (JSVal.obj c) keyType fc item =
      Except.ok (if vpB item keyType c then setProp fc item (getProp c item)
                 else fc) := by
  unfold validateStep
  rw [validateParam_obj]
  cases hb : vpB item keyType c
  · simp [hb]
  · simp [hb, h, getPropV]

theorem validateStep_runtimes (c : Obj) (fc : Obj) (rts : List JSVal)
    (elems : List Obj)
    (h1 : getProp c "runtimes" = JSVal.arr rts)
    (h2 : rts.mapM validateRuntimeElem = Except.ok elems) :
    validateStep (JSVal.obj c) "array" fc "runtimes" =
      Except.ok (setProp fc "runtimes" (JSVal.arr (elems.map JSVal.obj))) := by
  have hmem : "runtimes" ∈ objectKeys c :=
    getProp_ne_undef_mem c "runtimes"
      (by rw [h1]; exact fun hcon => JSVal.noConfusion hcon)
  have hvp : vpB "runtimes" "array" c = true := by
    simp [vpB, hmem, h1, isArr]
  have hcast : asArr (getPropV (JSVal.obj c) "runtimes") = rts := by
    show asArr (getProp c "runtimes") = rts
    rw [h1]
    rfl
  unfold validateStep
  rw [validateParam_obj, hvp]
  show (match (asArr (getPropV (JSVal.obj c) "runtimes")).mapM validateRuntimeElem with
        | Except.error e => Except.error e
        | Except.ok runtimeList =>
            Except.ok (setProp fc "runtimes" (JSVal.arr (runtimeList.map JSVal.obj)))) =
      Except.ok (setProp fc "runtimes" (JSVal.arr (elems.map JSVal.obj)))
  rw [hcast, h2]

theorem vre_go (f : Obj) (l : List String) (acc : Obj)
    (hsub : ∀ p ∈ l, p ∈ objectKeys f)
    (hnd : l.Nodup)
    (hacc : ∀ p ∈ l, ¬p ∈ objectKeys acc) :
    l.foldlM (validateRuntimeStep (JSVal.obj f)) acc =
      Except.ok (acc ++ l.filterMap (fun p =>
        if typeof (getProp f p) == "string" then some (p, getProp f p)
        else none)) := by
  induction l generalizing acc with
  | nil =>
      rw [List.foldlM_nil, List.filterMap_nil, List.append_nil]
      rfl
  | cons a t ih =>
      have hndt := List.nodup_cons.mp hnd
      have hstep : validateRuntimeStep (JSVal.obj f) acc a =
          Except.ok (if typeof (getProp f a) == "string"
                     then setProp acc a (getProp f a) else acc) := by
        unfold validateRuntimeStep
        rw [validateParam_obj]
        have hvp : vpB a "string" f = (typeof (getProp f a) == "string") := by
          simp [vpB, hsub a (List.mem_cons_self a t)]
        rw [hvp]
        cases hc : typeof (getProp f a) == "string" <;> simp [hc, getPropV]
      rw [List.foldlM_cons, hstep, exceptOk_bind]
      cases hc : typeof (getProp f a) == "string"
      · rw [if_neg (by simp [hc])]
        rw [ih acc (fun p hp => hsub p (List.mem_cons_of_mem a hp)) hndt.2
            (fun p hp => hacc p (List.mem_cons_of_mem a hp))]
        have hc2 : ¬typeof (getProp f a) = "string" := by simpa using hc
        simp [List.filterMap_cons, hc2]
      · rw [if_pos (by simp [hc])]
        have hap : setProp acc a (getProp f a) = acc ++ [(a, getProp f a)] :=
          setProp_eq_append acc a (getProp f a) (hacc a (List.mem_cons_self a t))
        rw [hap]
        rw [ih (acc ++ [(a, getProp f a)])
            (fun p hp => hsub p (List.mem_cons_of_mem a hp)) hndt.2 ?hk]
        case hk =>
          intro p hp hmem
          have : p ∈ objectKeys acc ∨ p = a := by
            simpa [objectKeys, List.mem_append] using hmem
          rcases this with hmem1 | hmem1
          · exact hacc p (List.mem_cons_of_mem a hp) hmem1
          · exact hndt.1 (hmem1 ▸ hp)
        have hc2 : typeof (getProp f a) = "string" := by simpa using hc
        simp [List.filterMap_cons, hc2]

theorem validateRuntimeElem_obj (f : Obj) (hnd : (objectKeys f).Nodup) :
    validateRuntimeElem (JSVal.obj f) =
      Except.ok (f.filter (fun kv => typeof kv.2 == "string")) := by
  have hkeys : (objectKeys f).filterMap (fun p =>
      if typeof (getProp f p) == "string" then some (p, getProp f p)
      else none) = f.filter (fun kv => typeof kv.2 == "string") := by
    induction f with
    | nil => rfl
    | cons hd tl ih =>
        obtain ⟨k, v⟩ := hd
        have hk : k ∉ objectKeys tl ∧ (objectKeys tl).Nodup :=
          List.nodup_cons.mp hnd
        have hgk : getProp ((k, v) :: tl) k = v := by simp [getProp]
        have hcongr : (objectKeys tl).filterMap (fun p =>
            if typeof (getProp ((k, v) :: tl) p) == "string" then
              some (p, getProp ((k, v) :: tl) p)
            else none) =
            (objectKeys tl).filterMap (fun p =>
              if typeof (getProp tl p) == "string" then some (p, getProp tl p)
              else none) := by
          apply List.filterMap_congr
          intro p hp
          have hkp : ¬k = p := fun e => hk.1 (e ▸ hp)
          simp [getProp, hkp]
        show ((k :: objectKeys tl).filterMap (fun p =>
            if typeof (getProp ((k, v) :: tl) p) == "string" then
              some (p, getProp ((k, v) :: tl) p)
            else none)) = _
        rw [List.filterMap_cons, hgk, hcongr, ih hk.2]
        cases hc : typeof v == "string"
        · simp [List.filter_cons, hc]
        · simp [List.filter_cons, hc]
  unfold validateRuntimeElem
  rw [show forInKeys (JSVal.obj f) = objectKeys f from rfl,
      vre_go f (objectKeys f) [] (fun p hp => hp) hnd (by simp [objectKeys]),
      List.nil_append, hkeys]

theorem mapM_validateRuntimeElem (rts : List JSVal)
    (h : ∀ r ∈ rts, ∃ f, r = JSVal.obj f ∧ (objectKeys f).Nodup) :
    rts.mapM validateRuntimeElem =
      Except.ok (rts.map runtimeStringFields) := by
  induction rts with
  | nil => rfl
  | cons r t ih =>
      obtain ⟨f, hf, hnd⟩ := h r (List.mem_cons_self r t)
      subst hf
      rw [List.mapM_cons, validateRuntimeElem_obj f hnd,
          ih (fun x hx => h x (List.mem_cons_of_mem _ hx))]
      rfl

theorem vfold_go_inner (c : Obj) (rv : JSVal) (keyType : String)
    (items : List String) (acc : Obj)
    (hstep : "runtimes" ∈ items → ∀ fc,
      validateStep (JSVal.obj c) keyType fc "runtimes" =
        Except.ok (vPureStep c rv keyType fc "runtimes")) :
    items.foldlM (validateStep (JSVal.obj c) keyType) acc =
      Except.ok (items.foldl (vPureStep c rv keyType) acc) := by
  induction items generalizing acc with
  | nil => rfl
  | cons a t ih =>
      rw [List.foldlM_cons, List.foldl_cons]
      by_cases ha : a = "runtimes"
      · subst ha
        rw [hstep (List.mem_cons_self _ _) acc, exceptOk_bind]
        exact ih (vPureStep c rv keyType acc "runtimes")
          (fun hm fc => hstep (List.mem_cons_of_mem _ hm) fc)
      · rw [validateStep_not_runtimes c keyType a acc ha, exceptOk_bind]
        have hv : vPureStep c rv keyType acc a =
            (if vpB a keyType c then setProp acc a (getProp c a) else acc) := by
          simp [vPureStep, ha]
        rw [← hv]
        exact ih (vPureStep c rv keyType acc a)
          (fun hm fc => hstep (List.mem_cons_of_mem _ hm) fc)

theorem vfold_go_outer (c : Obj) (rv : JSVal)
    (groups : List (String × List String)) (acc : Obj)
    (hstep : ∀ g ∈ groups, "runtimes" ∈ g.2 → ∀ fc,
      validateStep (JSVal.obj c) g.1 fc "runtimes" =
        Except.ok (vPureStep c rv g.1 fc "runtimes")) :
    groups.foldlM (fun a g => g.2.foldlM (validateStep (JSVal.obj c) g.1) a) acc =
      Except.ok (groups.foldl (fun a g => g.2.foldl (vPureStep c rv g.1) a) acc) := by
  induction groups generalizing acc with
  | nil => rfl
  | cons g gs ih =>
      simp only [List.foldlM_cons, List.foldl_cons]
      rw [vfold_go_inner c rv g.1 g.2 acc
            (fun hm fc => hstep g (List.mem_cons_self _ _) hm fc),
          exceptOk_bind]
      exact ih (g.2.foldl (vPureStep c rv g.1) acc)
        (fun g2 hg2 => hstep g2 (List.mem_cons_of_mem _ hg2))

theorem validateConfigObj_obj_eq (c : Obj) (rts : List JSVal) (elems : List Obj)
    (h1 : getProp c "runtimes" = JSVal.arr rts)
    (hm : rts.mapM validateRuntimeElem = Except.ok elems) :
    validateConfigObj (JSVal.obj c) =
      Except.ok (fillUserData (JSVal.obj c)
        (vFoldPure c (JSVal.arr (elems.map JSVal.obj)))) := by
  have hvp : vpB "runtimes" "array" c = true := by
    have hmem : "runtimes" ∈ objectKeys c :=
      getProp_ne_undef_mem c "runtimes"
        (by rw [h1]; exact fun hcon => JSVal.noConfusion hcon)
    simp [vpB, hmem, h1, isArr]
  have hstepR : ∀ g ∈ allKeys, "runtimes" ∈ g.2 → ∀ fc,
      validateStep (JSVal.obj c) g.1 fc "runtimes" =
        Except.ok (vPureStep c (JSVal.arr (elems.map JSVal.obj)) g.1 fc
          "runtimes") := by
    intro g hg hr fc
    simp only [allKeys, List.mem_cons, List.not_mem_nil, or_false] at hg
    rcases hg with hg | hg | hg | hg
    · rw [hg] at hr
      simp at hr
    · rw [hg] at hr
      simp at hr
    · rw [hg] at hr
      simp at hr
    · rw [hg]
      rw [validateStep_runtimes c fc rts elems h1 hm]
      simp [vPureStep, hvp]
  unfold validateConfigObj
  rw [vfold_go_outer c (JSVal.arr (elems.map JSVal.obj)) allKeys [] hstepR]
  rfl

theorem getProp_ite_setProp_ne (b : Prop) [Decidable b] (o : Obj) (k : String)
    (v : JSVal) (key : String) (h : ¬k = key) :
    getProp (if b then setProp o k v else o) key = getProp o key := by
  by_cases hb : b <;> simp [hb, getProp_setProp_ne _ _ _ _ h]

theorem getProp_vFoldPure_runtimes (c : Obj) (rv : JSVal)
    (h : vpB "runtimes" "array" c = true) :
    getProp (vFoldPure c rv) "runtimes" = rv := by
  unfold vFoldPure
  simp only [allKeys, List.foldl_cons, List.foldl_nil]
  unfold vPureStep
  rw [h]
  simp [getProp_ite_setProp_ne, getProp_setProp_self]

/-- C9: for every parsed config whose `runtimes` value is an array of
(duplicate-free) objects, validation succeeds — a malformed field never
fails the whole config — and the validated `runtimes` is the array of
entries rebuilt element by element: inside each entry exactly the
string-valued fields are kept, in order, and non-string fields are
dropped, leaving the other fields of that entry and all other entries
intact. -/
theorem validateConfig_runtimes_elementwise (c : Obj) (rts : List JSVal)
    (h1 : getProp c "runtimes" = JSVal.arr rts)
    (h2 : ∀ r ∈ rts, ∃ f, r = JSVal.obj f ∧ (objectKeys f).Nodup) :
    ∃ final, validateConfigObj (JSVal.obj c) = Except.ok final ∧
      getProp final "runtimes" =
        JSVal.arr (rts.map (fun r => JSVal.obj (runtimeStringFields r))) := by
  have hm := mapM_validateRuntimeElem rts h2
  have hvp : vpB "runtimes" "array" c = true := by
    have hmem : "runtimes" ∈ objectKeys c :=
      getProp_ne_undef_mem c "runtimes"
        (by rw [h1]; exact fun hcon => JSVal.noConfusion hcon)
    simp [vpB, hmem, h1, isArr]
  refine ⟨_, validateConfigObj_obj_eq c rts (rts.map runtimeStringFields) h1 hm,
    ?_⟩
  rw [fillUserData_default_key _ _ _ (by decide),
      getProp_vFoldPure_runtimes c _ hvp, List.map_map]
  rfl

theorem validateConfig_runtimes_elementwise_witness :
    ∃ final, validateConfigObj (JSVal.obj
        [("runtimes", JSVal.arr
          [JSVal.obj [("src", JSVal.num 5), ("name", JSVal.str "pyodide")],
           JSVal.obj [("lang", JSVal.str "python")]])]) = Except.ok final ∧
      getProp final "runtimes" =
        JSVal.arr ([JSVal.obj [("src", JSVal.num 5), ("name", JSVal.str "pyodide")],
           JSVal.obj [("lang", JSVal.str "python")]].map
          (fun r => JSVal.obj (runtimeStringFields r))) := by
  refine validateConfig_runtimes_elementwise _ _ rfl ?_
  intro r hr
  simp only [List.mem_cons, List.not_mem_nil, or_false] at hr
  rcases hr with h | h
  · exact ⟨_, h, by decide⟩
  · exact ⟨_, h, by decide⟩
